import Mathlib

/-!
Shallow embedding of `duckdb_batch_reader.go` (package `flight`): the DuckDB
declared-type mapper, the per-field row-destination allocation performed by the
reader constructors, and the pull-based `SqlBatchReader` with its batching
loop, error capture and reference-counted teardown.

Go machine values are embedded as follows: Go strings become `String`
(operated on through their character lists, mirroring `strings.ToLower` and
`strings.HasPrefix`), Go integer scan values become `Int` (no claim here
depends on wrap-around), Go byte slices become `Option (List Nat)` (`none` is
the nil slice), and Go float64 scan values are carried opaquely as their
64-bit patterns (`Nat`); no claim inspects float arithmetic. A Go panic is
embedded as `Except.error`.
-/

/-- Lowercasing of a Go string, mirroring `strings.ToLower` (per-character
lowercase mapping). Defined on the character list so that it evaluates in the
kernel. -/
def toLowerStr (s : String) : String := ⟨s.data.map Char.toLower⟩

/-- Mirrors `strings.HasPrefix`. -/
def hasPrefixStr (s pre : String) : Bool := pre.data.isPrefixOf s.data

/-- The Arrow data types that appear in `duckdb_batch_reader.go`.
`denseUnion` stands for the fixed `duckDBDenseUnion` dense union over
{int64, float64, string} with type codes 0,1,2; nothing in the translated
code inspects its member fields, so they are not modelled separately.
`uint8` appears only in the allocator switch (`case arrow.UINT8, arrow.INT8`);
no mapping in this file ever produces it. -/
inductive ArrowDataType where
  | null
  | int8
  | int16
  | int32
  | int64
  | uint8
  | float32
  | float64
  | binary
  | string
  | date32
  | time32s
  | timestampUs
  | boolean
  | denseUnion
deriving DecidableEq, Repr

/-- The `duckDBDenseUnion` variable: a dense union of
{int: int64, float: float64, string: utf8}. -/
def duckDBDenseUnion : ArrowDataType := .denseUnion

/-- Body of `getArrowTypeFromString` after the `dbtype = strings.ToLower(dbtype)`
reassignment: the empty-name check, the `varchar` prefix check, and the fixed
switch table.  The Go `default` branch panics with
`"invalid DuckDB type: " + dbtype`; the panic is embedded as `Except.error`. -/
def arrowTypeOfLower (dbtype : String) : Except String ArrowDataType :=
  if dbtype = "" then
    -- DuckDB may not know the type yet.
    .ok .null
  else if hasPrefixStr dbtype "varchar" then
    .ok .string
  else
    match dbtype with
    | "tinyint" => .ok .int8
    | "smallint" => .ok .int16
    | "integer" | "int" | "int32" => .ok .int32
    | "bigint" | "int64" => .ok .int64
    | "float" => .ok .float32
    | "double" => .ok .float64
    | "blob" => .ok .binary
    | "text" | "varchar" | "string" => .ok .string
    | "date" => .ok .date32
    | "time" => .ok .time32s
    | "timestamp" => .ok .timestampUs
    | "boolean" => .ok .boolean
    | _ => .error ("invalid DuckDB type: " ++ dbtype)

/-- `getArrowTypeFromString` from `duckdb_batch_reader.go`: lowercases the
declared DuckDB type name and looks it up. -/
def getArrowTypeFromString (dbtype : String) : Except String ArrowDataType :=
  arrowTypeOfLower (toLowerStr dbtype)

/-- The subset of Go reflect kinds the embedding distinguishes.  `other`
collapses every remaining `reflect.Kind` (Uintptr, Complex64, Complex128,
Array, Chan, Func, Interface, Map, Pointer, Slice, Struct, UnsafePointer):
the Go switch in `getArrowType` treats all of them identically (no case
matches, so control falls through). -/
inductive ReflectKind where
  | int
  | int8
  | int16
  | int32
  | int64
  | uint
  | uint8
  | uint16
  | uint32
  | uint64
  | float32
  | float64
  | string
  | bool
  | other
deriving DecidableEq, Repr

/-- The part of `*sql.ColumnType` that `duckdb_batch_reader.go` reads:
`Name()`, `DatabaseTypeName()`, `Nullable()` (the `ok` result is discarded by
the Go code) and `ScanType()` (`none` embeds a nil `reflect.Type`). -/
structure ColumnType where
  name : String
  databaseTypeName : String
  nullable : Bool
  scanType : Option ReflectKind
deriving DecidableEq, Repr

/-- `getArrowType` from `duckdb_batch_reader.go`: for an empty lowered
declared name, a nil scan type gives the dense union; otherwise the scan
kind is switched on, and any kind without a case falls through to
`getArrowTypeFromString(dbtype)` (with `dbtype` still the empty string,
hence `NullType`). -/
def getArrowType (c : ColumnType) : Except String ArrowDataType :=
  let dbtype := toLowerStr c.databaseTypeName
  if dbtype = "" then
    match c.scanType with
    | none => .ok duckDBDenseUnion
    | some k =>
      match k with
      | .int8 | .uint8 => .ok .int8
      | .int16 | .uint16 => .ok .int16
      | .int32 | .uint32 => .ok .int32
      | .int | .int64 | .uint64 => .ok .int64
      | .float32 => .ok .float32
      | .float64 => .ok .float64
      | .string => .ok .string
      | .bool => .ok .boolean
      | _ => getArrowTypeFromString dbtype
  else getArrowTypeFromString dbtype

/-- `maxBatchSize` from `duckdb_batch_reader.go`. -/
def maxBatchSize : Nat := 1024

/-- The concrete shapes stored into `rowdest` by the reader constructors:
the dynamic type of the `interface{}` slot established per field.
`generic` is `new(interface{})`; `rawUint8` is `new(uint8)`; `nullByte` is
`&sql.NullByte{}`; and so on.  `byteSeq` is the `*[]byte` slot (`&b`): note
the pointer itself is never nil. -/
inductive RowDest where
  | generic
  | rawUint8
  | nullByte
  | rawInt32
  | nullInt32
  | rawInt64
  | nullInt64
  | rawFloat64
  | nullFloat64
  | byteSeq
  | rawString
  | nullString
deriving DecidableEq, Repr

/-- The per-field destination switch shared verbatim by
`NewDuckDBBatchReaderWithSchema` (lines 110-148) and `NewDuckDBBatchReader`
(lines 177-213): `switch f.Type.ID() { ... }`.  The Go switch has no default
case, so a field whose type ID is not listed (INT16, BOOLEAN, DATE32, TIME32,
TIMESTAMP, NULL) leaves its `rowdest` slot as a nil interface, embedded as
`none`. -/
def mkRowDest (t : ArrowDataType) (nullable : Bool) : Option RowDest :=
  match t with
  | .denseUnion => some .generic
  | .uint8 | .int8 => some (if nullable then .nullByte else .rawUint8)
  | .int32 => some (if nullable then .nullInt32 else .rawInt32)
  | .int64 => some (if nullable then .nullInt64 else .rawInt64)
  | .float32 | .float64 => some (if nullable then .nullFloat64 else .rawFloat64)
  | .binary => some .byteSeq
  | .string => some (if nullable then .nullString else .rawString)
  | _ => none

/-- An `arrow.Field` as used by the reader: name, data type, nullability.
The passthrough `Metadata` (column-metadata tag for the Flight SQL layer) is
not modelled; nothing in the translated code reads it back. -/
structure FieldSpec where
  name : String
  type : ArrowDataType
  nullable : Bool
deriving DecidableEq, Repr

/-- One scanned row destination as seen by the `Next()` type switch: the
dynamic type of the populated slot together with the value the cursor wrote
into it.  `sBytes none` is a nil `[]byte`; float payloads carry the raw
64-bit pattern.  `sGeneric` is the populated `*interface{}` slot of a
union-typed field (the Go type switch has no case for it). -/
inductive ScanVal where
  | sGeneric
  | sUint8 (v : Nat)
  | sNullByte (valid : Bool) (v : Nat)
  | sInt32 (v : Int)
  | sNullInt32 (valid : Bool) (v : Int)
  | sInt64 (v : Int)
  | sNullInt64 (valid : Bool) (v : Int)
  | sFloat64 (bits : Nat)
  | sNullFloat64 (valid : Bool) (bits : Nat)
  | sBytes (b : Option (List Nat))
  | sString (s : String)
  | sNullString (valid : Bool) (s : String)
deriving DecidableEq, Repr

/-- One appended column entry.  `float32Cell bits` records that the builder
stored `float32(v)` of the float64 value with pattern `bits` (IEEE narrowing
itself is not modelled; no claim inspects it).  `binaryCell` records the
bytes stored by `BinaryBuilder.Append`, which stores a nil slice as a valid
zero-length value. -/
inductive Cell where
  | null
  | uint8Cell (v : Nat)
  | int32Cell (v : Int)
  | int64Cell (v : Int)
  | float64Cell (bits : Nat)
  | float32Cell (bits : Nat)
  | binaryCell (b : List Nat)
  | stringCell (s : String)
deriving DecidableEq, Repr

/-- Outcome of one successful `rows.Next()` step of the cursor: either the
subsequent `rows.Scan` succeeds and populates the destinations, or it fails
with an error message. -/
inductive RowOutcome where
  | scanOk (vals : List ScanVal)
  | scanErr (msg : String)
deriving DecidableEq, Repr

/-- The error recorded by `Next()` on a scan failure: a gRPC status with
code `Unknown`, the scan error text, and the schema string attached via
`WithDetails` (the `WithDetails` failure fallback cannot fire for a plain
string detail, so only the success shape is modelled). -/
structure WrappedErr where
  code : String
  msg : String
  detail : String
deriving DecidableEq, Repr

/-- Rendering of `r.schema.String()` used as the diagnostic detail.  It
stands for the arrow library Schema formatter; the claims only require that
it describes the schema (fields with name, type and nullability). -/
def schemaString (fields : List FieldSpec) : String :=
  "schema:\n  fields: " ++
    String.intercalate ", "
      (fields.map fun f =>
        f.name ++ (if f.nullable then ": nullable " else ": ") ++ reprStr f.type)

/-- The `SqlBatchReader` state.  Fields that the Go teardown sets to nil are
`Option`s.  `closeCount` is ghost instrumentation counting how many times
`r.rows.Close()` has run, used to state the exactly-once teardown claims. -/
structure SqlBatchReader where
  refCount : Int
  schema : Option (List FieldSpec)
  rows : Option (List RowOutcome)
  record : Option (List (List Cell))
  bldr : Option (List (List Cell))
  err : Option WrappedErr
  rowdest : Option (List (Option RowDest))
  closeCount : Nat
deriving DecidableEq, Repr

/-- `NewDuckDBBatchReaderWithSchema`: allocates one destination slot per
schema field via the type switch and returns a reader with reference count 1
and a fresh record builder (one empty column per field). -/
def NewDuckDBBatchReaderWithSchema (schema : List FieldSpec)
    (script : List RowOutcome) : SqlBatchReader :=
  { refCount := 1
    schema := some schema
    rows := some script
    record := none
    bldr := some (List.replicate schema.length [])
    err := none
    rowdest := some (schema.map fun f => mkRowDest f.type f.nullable)
    closeCount := 0 }

/-- `NewDuckDBBatchReader`: resolves each field from the cursor column
metadata (`?` names get the positional index appended, nullability from
`Nullable()`, type from `getArrowType`, which may panic out of the
constructor), allocates the destinations with the same switch, and builds the
reader.  The `rows.ColumnTypes()` failure path (close and propagate) is an
external-failure injection not needed by any claim and is not modelled. -/
def NewDuckDBBatchReader (cols : List ColumnType) (script : List RowOutcome) :
    Except String SqlBatchReader := do
  let fields ← (cols.enum.mapM fun (i, c) => do
    let t ← getArrowType c
    let nm := if c.name = "?" then c.name ++ ":" ++ toString i else c.name
    pure ({ name := nm, type := t, nullable := c.nullable } : FieldSpec))
  pure (NewDuckDBBatchReaderWithSchema fields script)

/-- `Retain`: atomic increment of the reference count. -/
def SqlBatchReader.Retain (r : SqlBatchReader) : SqlBatchReader :=
  { r with refCount := r.refCount + 1 }

/-- `Release`: atomic decrement; on the transition to zero it closes the
cursor, nils out rows/schema/rowdest, releases the builder, and releases any
retained record. -/
def SqlBatchReader.Release (r : SqlBatchReader) : SqlBatchReader :=
  if r.refCount - 1 = 0 then
    { r with refCount := r.refCount - 1
             rows := none
             closeCount := r.closeCount + 1
             schema := none
             rowdest := none
             bldr := none
             record := none }
  else { r with refCount := r.refCount - 1 }

/-- The `Schema()` accessor. -/
def SqlBatchReader.Schema (r : SqlBatchReader) : Option (List FieldSpec) :=
  r.schema

/-- The `Record()` accessor. -/
def SqlBatchReader.Record (r : SqlBatchReader) : Option (List (List Cell)) :=
  r.record

/-- The `Err()` accessor. -/
def SqlBatchReader.Err (r : SqlBatchReader) : Option WrappedErr := r.err

/-- One step of the `Next()` append type switch (lines 267-328) for a single
field: `v` is the populated destination slot, `t` the field type of the
corresponding builder `r.bldr.Field(i)`, `col` the cells the builder already
holds.  Failed Go type assertions (`fb.(*array.Uint8Builder)` on a builder of
another concrete type, and so on) panic; the panic is `Except.error`.  The
float cases mirror the inner builder type switch, which appends nothing when
the builder is neither Float64 nor Float32 (it has no default case).  The
byte-slice case mirrors `if v == nil`: `v` there is the `*[]byte` pointer
(`&b` from the allocator), which is never nil, so the `AppendNull` branch is
unreachable and `BinaryBuilder.Append(*v)` runs even for a nil slice, storing
a valid zero-length value. -/
def appendVal (t : ArrowDataType) (v : ScanVal) (col : List Cell) :
    Except String (List Cell) :=
  match v with
  | .sGeneric => .ok col
  | .sUint8 b =>
    match t with
    | .uint8 => .ok (col ++ [.uint8Cell b])
    | _ => .error "interface conversion: builder is not *array.Uint8Builder"
  | .sNullByte valid b =>
    if !valid then .ok (col ++ [.null])
    else
      match t with
      | .uint8 => .ok (col ++ [.uint8Cell b])
      | _ => .error "interface conversion: builder is not *array.Uint8Builder"
  | .sInt64 z =>
    match t with
    | .int64 => .ok (col ++ [.int64Cell z])
    | _ => .error "interface conversion: builder is not *array.Int64Builder"
  | .sNullInt64 valid z =>
    if !valid then .ok (col ++ [.null])
    else
      match t with
      | .int64 => .ok (col ++ [.int64Cell z])
      | _ => .error "interface conversion: builder is not *array.Int64Builder"
  | .sInt32 z =>
    match t with
    | .int32 => .ok (col ++ [.int32Cell z])
    | _ => .error "interface conversion: builder is not *array.Int32Builder"
  | .sNullInt32 valid z =>
    if !valid then .ok (col ++ [.null])
    else
      match t with
      | .int32 => .ok (col ++ [.int32Cell z])
      | _ => .error "interface conversion: builder is not *array.Int32Builder"
  | .sFloat64 bits =>
    match t with
    | .float64 => .ok (col ++ [.float64Cell bits])
    | .float32 => .ok (col ++ [.float32Cell bits])
    | _ => .ok col
  | .sNullFloat64 valid bits =>
    if !valid then .ok (col ++ [.null])
    else
      match t with
      | .float64 => .ok (col ++ [.float64Cell bits])
      | .float32 => .ok (col ++ [.float32Cell bits])
      | _ => .ok col
  | .sBytes b =>
    match t with
    | .binary => .ok (col ++ [.binaryCell (b.getD [])])
    | _ => .error "interface conversion: builder is not *array.BinaryBuilder"
  | .sString s =>
    match t with
    | .string => .ok (col ++ [.stringCell s])
    | _ => .error "interface conversion: builder is not *array.StringBuilder"
  | .sNullString valid s =>
    if !valid then .ok (col ++ [.null])
    else
      match t with
      | .string => .ok (col ++ [.stringCell s])
      | _ => .error "interface conversion: builder is not *array.StringBuilder"

/-- The `for i, v := range r.rowdest` append loop of `Next()`, one row:
walks the populated destinations in parallel with the builder field types
and columns.  The ragged base case is unreachable for readers built by the
constructors (one destination, one field type and one builder column per
schema field). -/
def appendRow : List ArrowDataType → List ScanVal → List (List Cell) →
    Except String (List (List Cell))
  | t :: ts, v :: vs, c :: cs =>
    match appendVal t v c with
    | .error p => .error p
    | .ok c2 =>
      match appendRow ts vs cs with
      | .error p => .error p
      | .ok cs2 => .ok (c2 :: cs2)
  | _, _, cs => .ok cs

/-- Result of the row-pulling loop of `Next()`. -/
inductive LoopResult where
  | scanFailed (rest : List RowOutcome) (cols : List (List Cell))
      (e : WrappedErr)
  | completed (n : Nat) (rest : List RowOutcome) (cols : List (List Cell))
deriving DecidableEq, Repr

/-- The error wrapping on the scan-failure path of `Next()`:
`status.New(codes.Unknown, err.Error()).WithDetails(schema string)`. -/
def wrapScanErr (e : String) (ss : String) : WrappedErr :=
  { code := "Unknown", msg := e, detail := ss }

/-- The `for rows < maxBatchSize && r.rows.Next()` loop of `Next()` (lines
254-331): `nrows` is the loop counter, `pend` the rows the cursor has left,
`cols` the builder columns.  A scan failure wraps the error with the schema
string and leaves the loop at once (the row is consumed, the builder keeps
whatever it accumulated); a scanned row is appended destination by
destination (a panic escapes as `Except.error`). -/
def nextLoop (types : List ArrowDataType) (ss : String) :
    Nat → List RowOutcome → List (List Cell) → Except String LoopResult
  | nrows, [], cols => .ok (.completed nrows [] cols)
  | nrows, o :: rest, cols =>
    if nrows < maxBatchSize then
      match o with
      | .scanErr e => .ok (.scanFailed rest cols (wrapScanErr e ss))
      | .scanOk vals =>
        match appendRow types vals cols with
        | .error p => .error p
        | .ok cols2 => nextLoop types ss (nrows + 1) rest cols2
    else .ok (.completed nrows (o :: rest) cols)

/-- `Next()` from `duckdb_batch_reader.go`: releases any previously exposed
record, pulls and appends rows up to `maxBatchSize`, and either records the
wrapped scan error and returns false (builder contents kept, no record
made), or finalizes the builder into a new record (`r.bldr.NewRecord()`
resets the builder to empty columns) and returns whether any row was read.
Calling `Next` on a torn-down reader dereferences nil pointers in Go; that
panic is the final `Except.error`. -/
def SqlBatchReader.Next (r : SqlBatchReader) :
    Except String (Bool × SqlBatchReader) :=
  let r0 : SqlBatchReader := { r with record := none }
  match r0.rows, r0.schema, r0.bldr with
  | some pend, some sch, some cols =>
    match nextLoop (sch.map FieldSpec.type) (schemaString sch) 0 pend cols with
    | .error p => .error p
    | .ok (.scanFailed rest keptCols e) =>
      .ok (false, { r0 with rows := some rest, bldr := some keptCols,
                            err := some e })
    | .ok (.completed n rest outCols) =>
      .ok (decide (0 < n),
           { r0 with rows := some rest,
                     bldr := some (List.replicate sch.length []),
                     record := some outCols })
  | _, _, _ => .error "runtime error: invalid memory address or nil pointer dereference"

/-- Iterated application, used to state N Retains followed by M Releases. -/
def applyN (f : α → α) : Nat → α → α
  | 0, a => a
  | n + 1, a => f (applyN f n a)

/-- A cursor script of successfully scanned single-column int32 rows. -/
def int32Script (vals : List Int) : List RowOutcome :=
  vals.map fun z => .scanOk [.sInt32 z]

/-- A one-column non-nullable int32 schema, the shape used by the
batching-behavior claims. -/
def c1Schema : List FieldSpec :=
  [{ name := "v", type := .int32, nullable := false }]

/-- True when every column of the exposed record is within the batch cap. -/
def recordWithinCap (r : SqlBatchReader) : Bool :=
  match r.record with
  | none => true
  | some cols => cols.all fun c => c.length ≤ maxBatchSize

/-- The declared type names of the fixed mapping table in
`getArrowTypeFromString`. -/
def tableNames : List String :=
  ["tinyint", "smallint", "integer", "int", "int32", "bigint", "int64",
   "float", "double", "blob", "text", "varchar", "string", "date", "time",
   "timestamp", "boolean"]

theorem nextLoop_int32_ok (ss : String) :
    ∀ (vals : List Int) (n : Nat) (c : List Cell), n ≤ maxBatchSize →
    nextLoop [.int32] ss n (int32Script vals) [c]
      = .ok (.completed (n + min vals.length (maxBatchSize - n))
             (int32Script (vals.drop (maxBatchSize - n)))
             [c ++ (vals.take (maxBatchSize - n)).map Cell.int32Cell]) := by
  intro vals
  induction vals with
  | nil =>
    intro n c _
    simp [int32Script, nextLoop]
  | cons z vs ih =>
    intro n c hn
    by_cases hlt : n < maxBatchSize
    · have hm : maxBatchSize - n = (maxBatchSize - (n + 1)) + 1 := by omega
      have hstep :
          nextLoop [.int32] ss n (int32Script (z :: vs)) [c]
            = nextLoop [.int32] ss (n + 1) (int32Script vs)
                [c ++ [Cell.int32Cell z]] := by
        simp [int32Script, nextLoop, hlt, appendRow, appendVal]
      rw [hstep, ih (n + 1) (c ++ [Cell.int32Cell z]) (by omega), hm]
      simp only [List.drop_succ_cons, List.take_succ_cons, List.map_cons,
        List.length_cons, Except.ok.injEq, LoopResult.completed.injEq]
      exact ⟨by omega, by simp, by simp⟩
    · have hz : maxBatchSize - n = 0 := by omega
      simp [int32Script, nextLoop, hlt, hz]

theorem nextLoop_int32_err (ss e : String) :
    ∀ (vals : List Int) (n : Nat) (c : List Cell),
      n + vals.length < maxBatchSize →
    nextLoop [.int32] ss n (int32Script vals ++ [.scanErr e]) [c]
      = .ok (.scanFailed [] [c ++ vals.map Cell.int32Cell]
             (wrapScanErr e ss)) := by
  intro vals
  induction vals with
  | nil =>
    intro n c hn
    simp only [int32Script, List.map_nil, List.nil_append]
    simp [nextLoop, show n < maxBatchSize from by omega]
  | cons z vs ih =>
    intro n c hn
    have hstep :
        nextLoop [.int32] ss n (int32Script (z :: vs) ++ [.scanErr e]) [c]
          = nextLoop [.int32] ss (n + 1) (int32Script vs ++ [.scanErr e])
              [c ++ [Cell.int32Cell z]] := by
      simp [int32Script, nextLoop, show n < maxBatchSize from by omega,
        appendRow, appendVal]
    rw [hstep, ih (n + 1) (c ++ [Cell.int32Cell z]) (by simp at hn ⊢; omega)]
    simp

theorem Next_completed {r : SqlBatchReader} {sch : List FieldSpec}
    {pend : List RowOutcome} {cols outCols : List (List Cell)} {n : Nat}
    {rest : List RowOutcome}
    (hs : r.schema = some sch) (hr : r.rows = some pend)
    (hb : r.bldr = some cols)
    (hl : nextLoop (sch.map FieldSpec.type) (schemaString sch) 0 pend cols
            = .ok (.completed n rest outCols)) :
    r.Next = .ok (decide (0 < n),
      { r with record := some outCols, rows := some rest,
               bldr := some (List.replicate sch.length []) }) := by
  simp [SqlBatchReader.Next, hs, hr, hb, hl]

theorem Next_scanFailed {r : SqlBatchReader} {sch : List FieldSpec}
    {pend rest : List RowOutcome} {cols kept : List (List Cell)}
    {e : WrappedErr}
    (hs : r.schema = some sch) (hr : r.rows = some pend)
    (hb : r.bldr = some cols)
    (hl : nextLoop (sch.map FieldSpec.type) (schemaString sch) 0 pend cols
            = .ok (.scanFailed rest kept e)) :
    r.Next = .ok (false, { r with record := none, rows := some rest,
                                  bldr := some kept, err := some e }) := by
  simp [SqlBatchReader.Next, hs, hr, hb, hl]

theorem nextLoop_int32_full (ss : String) (vals : List Int) (c : List Cell) :
    nextLoop [.int32] ss 0 (int32Script vals) [c]
      = .ok (.completed (min vals.length maxBatchSize)
             (int32Script (vals.drop maxBatchSize))
             [c ++ (vals.take maxBatchSize).map Cell.int32Cell]) := by
  have := nextLoop_int32_ok ss vals 0 c (Nat.zero_le _)
  simpa using this

/-- C1: a cursor yielding exactly 1025 rows gives a first `Next()` that
returns true with a 1024-row batch, a second that returns true with a 1-row
batch, and a third that returns false; none of the calls accumulates more
than the 1024-row cap into a batch. -/
theorem spec_c1 (vals : List Int) (h : vals.length = 1025) :
    ∃ r1 r2 r3 : SqlBatchReader,
      (NewDuckDBBatchReaderWithSchema c1Schema (int32Script vals)).Next
        = .ok (true, r1)
      ∧ r1.record = some [(vals.take 1024).map Cell.int32Cell]
      ∧ r1.record.map (List.map List.length) = some [1024]
      ∧ r1.Next = .ok (true, r2)
      ∧ r2.record = some [(vals.drop 1024).map Cell.int32Cell]
      ∧ r2.record.map (List.map List.length) = some [1]
      ∧ r2.Next = .ok (false, r3)
      ∧ recordWithinCap r1 = true
      ∧ recordWithinCap r2 = true
      ∧ recordWithinCap r3 = true := by
  have hmap : c1Schema.map FieldSpec.type = [ArrowDataType.int32] := rfl
  have hl1 : nextLoop [ArrowDataType.int32] (schemaString c1Schema) 0
      (int32Script vals) [[]]
      = .ok (.completed 1024 (int32Script (vals.drop 1024))
             [(vals.take 1024).map Cell.int32Cell]) := by
    rw [nextLoop_int32_full (schemaString c1Schema) vals []]
    simp only [maxBatchSize]
    rw [show min vals.length 1024 = 1024 from by omega]
    simp
  have h1 := Next_completed
    (r := NewDuckDBBatchReaderWithSchema c1Schema (int32Script vals))
    rfl rfl rfl (by rw [hmap]; exact hl1)
  rw [show decide (0 < 1024) = true from rfl] at h1
  have hlen2 : (vals.drop 1024).length = 1 := by simp [h]
  have hl2 : nextLoop [ArrowDataType.int32] (schemaString c1Schema) 0
      (int32Script (vals.drop 1024)) [[]]
      = .ok (.completed 1 [] [(vals.drop 1024).map Cell.int32Cell]) := by
    rw [nextLoop_int32_full (schemaString c1Schema) (vals.drop 1024) []]
    simp only [maxBatchSize]
    rw [show min (vals.drop 1024).length 1024 = 1 from by omega,
      List.drop_eq_nil_of_le (by omega), List.take_of_length_le (by omega)]
    simp [int32Script]
  have h2 := Next_completed
    (r := { NewDuckDBBatchReaderWithSchema c1Schema (int32Script vals) with
            record := some [(vals.take 1024).map Cell.int32Cell],
            rows := some (int32Script (vals.drop 1024)),
            bldr := some (List.replicate c1Schema.length []) })
    rfl rfl rfl (by rw [hmap]; exact hl2)
  rw [show decide (0 < 1) = true from rfl] at h2
  have hl3 : nextLoop (c1Schema.map FieldSpec.type) (schemaString c1Schema) 0
      ([] : List RowOutcome) [[]]
      = .ok (.completed 0 [] [[]]) := rfl
  have h3 := Next_completed
    (r := { NewDuckDBBatchReaderWithSchema c1Schema (int32Script vals) with
            record := some [(vals.drop 1024).map Cell.int32Cell],
            rows := some ([] : List RowOutcome),
            bldr := some (List.replicate c1Schema.length []) })
    rfl rfl rfl hl3
  rw [show decide (0 < 0) = false from rfl] at h3
  refine ⟨_, _, _, h1, rfl, ?_, h2, rfl, ?_, h3, ?_, ?_, ?_⟩
  · simp [List.length_take, h]
  · simp [h]
  · simp [recordWithinCap, maxBatchSize, List.length_take]
  · simp [recordWithinCap, maxBatchSize]
    omega
  · simp [recordWithinCap, maxBatchSize]

/-- Witness for C1 at the concrete 1025-row cursor of zeros. -/
theorem spec_c1_witness :
    ∃ r1 r2 r3 : SqlBatchReader,
      (NewDuckDBBatchReaderWithSchema c1Schema
          (int32Script (List.replicate 1025 (0 : Int)))).Next = .ok (true, r1)
      ∧ r1.record
          = some [((List.replicate 1025 (0 : Int)).take 1024).map Cell.int32Cell]
      ∧ r1.record.map (List.map List.length) = some [1024]
      ∧ r1.Next = .ok (true, r2)
      ∧ r2.record
          = some [((List.replicate 1025 (0 : Int)).drop 1024).map Cell.int32Cell]
      ∧ r2.record.map (List.map List.length) = some [1]
      ∧ r2.Next = .ok (false, r3)
      ∧ recordWithinCap r1 = true
      ∧ recordWithinCap r2 = true
      ∧ recordWithinCap r3 = true :=
  spec_c1 (List.replicate 1025 0) (by rw [List.length_replicate])

/-- C2 (amended): when a scan fails on row k with k > 0 rows already
accumulated in that call, the failing call exposes no batch, returns false,
and records an error that wraps the scan error text together with the
schema description and persists for the life of the reader (it survives
later calls and Release); however the k accumulated rows are not
discarded: they stay in the builder and are included in the batch that the
next call finalizes and exposes. -/
theorem spec_c2_amended (vals : List Int) (e : String)
    (hpos : 0 < vals.length) (hcap : vals.length < 1024) :
    ∃ r1 r2 : SqlBatchReader,
      (NewDuckDBBatchReaderWithSchema c1Schema
          (int32Script vals ++ [.scanErr e])).Next = .ok (false, r1)
      ∧ r1.Record = none
      ∧ r1.Err = some (wrapScanErr e (schemaString c1Schema))
      ∧ r1.bldr = some [vals.map Cell.int32Cell]
      ∧ r1.Next = .ok (false, r2)
      ∧ r2.Record = some [vals.map Cell.int32Cell]
      ∧ r2.Err = some (wrapScanErr e (schemaString c1Schema))
      ∧ r2.Release.Err = some (wrapScanErr e (schemaString c1Schema)) := by
  have hmap : c1Schema.map FieldSpec.type = [ArrowDataType.int32] := rfl
  have hl1 : nextLoop [ArrowDataType.int32] (schemaString c1Schema) 0
      (int32Script vals ++ [.scanErr e]) [[]]
      = .ok (.scanFailed [] [vals.map Cell.int32Cell]
             (wrapScanErr e (schemaString c1Schema))) := by
    have hcap2 : 0 + vals.length < maxBatchSize := by
      simp only [maxBatchSize]
      omega
    rw [nextLoop_int32_err (schemaString c1Schema) e vals 0 [] hcap2]
    simp
  have h1 := Next_scanFailed
    (r := NewDuckDBBatchReaderWithSchema c1Schema
      (int32Script vals ++ [.scanErr e]))
    rfl rfl rfl (by rw [hmap]; exact hl1)
  have hl2 : nextLoop (c1Schema.map FieldSpec.type) (schemaString c1Schema) 0
      ([] : List RowOutcome) [vals.map Cell.int32Cell]
      = .ok (.completed 0 [] [vals.map Cell.int32Cell]) := rfl
  have h2 := Next_completed
    (r := { NewDuckDBBatchReaderWithSchema c1Schema
              (int32Script vals ++ [.scanErr e]) with
            record := none, rows := some ([] : List RowOutcome),
            bldr := some [vals.map Cell.int32Cell],
            err := some (wrapScanErr e (schemaString c1Schema)) })
    rfl rfl rfl hl2
  rw [show decide (0 < 0) = false from rfl] at h2
  exact ⟨_, _, h1, rfl, rfl, rfl, h2, rfl, rfl, rfl⟩

/-- C2 counterexample: one successfully scanned row followed by a scan
failure; the failing call returns false, but a second call to `Next()`
finalizes the retained builder contents and exposes row 0 in its record,
so the partially accumulated batch is not discarded and its rows are
exposed by a later call. -/
theorem spec_c2_counterexample :
    (((NewDuckDBBatchReaderWithSchema c1Schema
        [.scanOk [.sInt32 5], .scanErr "boom"]).Next).bind
      fun p => p.2.Next).map (fun p => (p.1, p.2.record))
      = .ok (false, some [[Cell.int32Cell 5]]) := rfl

/-- Witness for the amended C2 at a concrete one-row-then-error cursor. -/
theorem spec_c2_witness :
    ∃ r1 r2 : SqlBatchReader,
      (NewDuckDBBatchReaderWithSchema c1Schema
          (int32Script [5] ++ [.scanErr "boom"])).Next = .ok (false, r1)
      ∧ r1.Record = none
      ∧ r1.Err = some (wrapScanErr "boom" (schemaString c1Schema))
      ∧ r1.bldr = some [[(5 : Int)].map Cell.int32Cell]
      ∧ r1.Next = .ok (false, r2)
      ∧ r2.Record = some [[(5 : Int)].map Cell.int32Cell]
      ∧ r2.Err = some (wrapScanErr "boom" (schemaString c1Schema))
      ∧ r2.Release.Err = some (wrapScanErr "boom" (schemaString c1Schema)) :=
  spec_c2_amended [5] "boom" (by decide) (by decide)

theorem applyN_retain_shape (n : Nat) (r : SqlBatchReader) :
    (applyN SqlBatchReader.Retain n r).refCount = r.refCount + n
    ∧ (applyN SqlBatchReader.Retain n r).closeCount = r.closeCount := by
  induction n with
  | zero => simp [applyN]
  | succ m ih =>
    obtain ⟨h1, h2⟩ := ih
    refine ⟨?_, ?_⟩
    · simp [applyN, SqlBatchReader.Retain, h1]
      omega
    · simp [applyN, SqlBatchReader.Retain, h2]

theorem applyN_release_live (k : Nat) :
    ∀ r : SqlBatchReader, (k : Int) < r.refCount →
    (applyN SqlBatchReader.Release k r).refCount = r.refCount - k
    ∧ (applyN SqlBatchReader.Release k r).closeCount = r.closeCount := by
  induction k with
  | zero => intro r _; simp [applyN]
  | succ m ih =>
    intro r h
    obtain ⟨h1, h2⟩ := ih r (by push_cast at h ⊢; omega)
    have hne : ¬((applyN SqlBatchReader.Release m r).refCount - 1 = 0) := by
      rw [h1]
      push_cast at h ⊢
      omega
    have hrel : SqlBatchReader.Release (applyN SqlBatchReader.Release m r)
        = { applyN SqlBatchReader.Release m r with
            refCount := (applyN SqlBatchReader.Release m r).refCount - 1 } := by
      rw [SqlBatchReader.Release, if_neg hne]
    refine ⟨?_, ?_⟩
    · simp [applyN, hrel, h1]
      omega
    · simp [applyN, hrel, h2]

/-- C3: the reference count starts at 1; N Retains followed by N+1 Releases
tear the reader down (cursor closed, builder and record released) exactly
once, on the final Release, and no earlier Release performs any teardown. -/
theorem spec_c3 (n : Nat) (schema : List FieldSpec) (script : List RowOutcome) :
    (NewDuckDBBatchReaderWithSchema schema script).refCount = 1
    ∧ (applyN SqlBatchReader.Release (n + 1)
        (applyN SqlBatchReader.Retain n
          (NewDuckDBBatchReaderWithSchema schema script))).closeCount = 1
    ∧ (applyN SqlBatchReader.Release (n + 1)
        (applyN SqlBatchReader.Retain n
          (NewDuckDBBatchReaderWithSchema schema script))).rows = none
    ∧ (applyN SqlBatchReader.Release (n + 1)
        (applyN SqlBatchReader.Retain n
          (NewDuckDBBatchReaderWithSchema schema script))).bldr = none
    ∧ (applyN SqlBatchReader.Release (n + 1)
        (applyN SqlBatchReader.Retain n
          (NewDuckDBBatchReaderWithSchema schema script))).record = none
    ∧ ∀ k, k ≤ n →
        (applyN SqlBatchReader.Release k
          (applyN SqlBatchReader.Retain n
            (NewDuckDBBatchReaderWithSchema schema script))).closeCount = 0 := by
  have h0 : (NewDuckDBBatchReaderWithSchema schema script).refCount = 1 := rfl
  have hcc0 : (NewDuckDBBatchReaderWithSchema schema script).closeCount = 0 := rfl
  obtain ⟨hr1, hc1⟩ :=
    applyN_retain_shape n (NewDuckDBBatchReaderWithSchema schema script)
  rw [h0] at hr1
  rw [hcc0] at hc1
  obtain ⟨hrn, hcn⟩ := applyN_release_live n
    (applyN SqlBatchReader.Retain n
      (NewDuckDBBatchReaderWithSchema schema script)) (by rw [hr1]; omega)
  have hrone : (applyN SqlBatchReader.Release n
      (applyN SqlBatchReader.Retain n
        (NewDuckDBBatchReaderWithSchema schema script))).refCount = 1 := by
    rw [hrn, hr1]
    omega
  have hfin : applyN SqlBatchReader.Release (n + 1)
      (applyN SqlBatchReader.Retain n
        (NewDuckDBBatchReaderWithSchema schema script))
      = SqlBatchReader.Release (applyN SqlBatchReader.Release n
          (applyN SqlBatchReader.Retain n
            (NewDuckDBBatchReaderWithSchema schema script))) := rfl
  have hzero : (applyN SqlBatchReader.Release n
      (applyN SqlBatchReader.Retain n
        (NewDuckDBBatchReaderWithSchema schema script))).refCount - 1 = 0 := by
    rw [hrone]
    decide
  refine ⟨h0, ?_, ?_, ?_, ?_, ?_⟩
  · rw [hfin, SqlBatchReader.Release, if_pos hzero]
    simp [hcn, hc1]
  · rw [hfin, SqlBatchReader.Release, if_pos hzero]
  · rw [hfin, SqlBatchReader.Release, if_pos hzero]
  · rw [hfin, SqlBatchReader.Release, if_pos hzero]
  · intro k hk
    obtain ⟨_, hck⟩ := applyN_release_live k
      (applyN SqlBatchReader.Retain n
        (NewDuckDBBatchReaderWithSchema schema script)) (by rw [hr1]; omega)
    rw [hck, hc1]

/-- Witness for C3 at N = 2: two Retains, then the first two Releases close
nothing and the third closes the cursor exactly once. -/
theorem spec_c3_witness :
    (NewDuckDBBatchReaderWithSchema [] []).refCount = 1
    ∧ (applyN SqlBatchReader.Release 3
        (applyN SqlBatchReader.Retain 2
          (NewDuckDBBatchReaderWithSchema [] []))).closeCount = 1
    ∧ (applyN SqlBatchReader.Release 2
        (applyN SqlBatchReader.Retain 2
          (NewDuckDBBatchReaderWithSchema [] []))).closeCount = 0 := by
  obtain ⟨ha, hb, _, _, _, hf⟩ := spec_c3 2 [] []
  exact ⟨ha, hb, hf 2 (by decide)⟩

/-- C10: the Release that takes the reference count to zero clears the
reader, so the `Schema()` and `Record()` accessors return nil afterwards
(row destinations and builder are cleared as well). -/
theorem spec_c10 (r : SqlBatchReader) (h : r.refCount = 1) :
    r.Release.Schema = none ∧ r.Release.Record = none
    ∧ r.Release.rowdest = none ∧ r.Release.bldr = none := by
  rw [SqlBatchReader.Release, if_pos (by rw [h]; rfl)]
  exact ⟨rfl, rfl, rfl, rfl⟩

/-- Witness for C10 at a freshly constructed reader. -/
theorem spec_c10_witness :
    (NewDuckDBBatchReaderWithSchema c1Schema []).Release.Schema = none
    ∧ (NewDuckDBBatchReaderWithSchema c1Schema []).Release.Record = none
    ∧ (NewDuckDBBatchReaderWithSchema c1Schema []).Release.rowdest = none
    ∧ (NewDuckDBBatchReaderWithSchema c1Schema []).Release.bldr = none :=
  spec_c10 (NewDuckDBBatchReaderWithSchema c1Schema []) rfl

theorem arrowTypeFromString_of_lower (s t : String) (a : ArrowDataType)
    (ht : arrowTypeOfLower t = .ok a) (h : toLowerStr s = t) :
    getArrowTypeFromString s = .ok a := by
  simp only [getArrowTypeFromString]
  rw [h, ht]

theorem arrowTypeFromString_of_varchar (s : String)
    (h : hasPrefixStr (toLowerStr s) "varchar" = true) :
    getArrowTypeFromString s = .ok .string := by
  simp only [getArrowTypeFromString, arrowTypeOfLower]
  have hne : ¬(toLowerStr s = "") := by
    intro he
    rw [he] at h
    exact absurd h (by decide)
  rw [if_neg hne, if_pos h]

/-- C4: every declared name of the mapping table, in any letter case, and
every varchar name with a length qualifier, maps to the documented
canonical type; the mapping is a pure function of the name. -/
theorem spec_c4 (s : String) :
    (toLowerStr s = "tinyint" → getArrowTypeFromString s = .ok .int8)
    ∧ (toLowerStr s = "smallint" → getArrowTypeFromString s = .ok .int16)
    ∧ (toLowerStr s = "integer" → getArrowTypeFromString s = .ok .int32)
    ∧ (toLowerStr s = "int" → getArrowTypeFromString s = .ok .int32)
    ∧ (toLowerStr s = "int32" → getArrowTypeFromString s = .ok .int32)
    ∧ (toLowerStr s = "bigint" → getArrowTypeFromString s = .ok .int64)
    ∧ (toLowerStr s = "int64" → getArrowTypeFromString s = .ok .int64)
    ∧ (toLowerStr s = "float" → getArrowTypeFromString s = .ok .float32)
    ∧ (toLowerStr s = "double" → getArrowTypeFromString s = .ok .float64)
    ∧ (toLowerStr s = "blob" → getArrowTypeFromString s = .ok .binary)
    ∧ (toLowerStr s = "text" → getArrowTypeFromString s = .ok .string)
    ∧ (toLowerStr s = "string" → getArrowTypeFromString s = .ok .string)
    ∧ (toLowerStr s = "date" → getArrowTypeFromString s = .ok .date32)
    ∧ (toLowerStr s = "time" → getArrowTypeFromString s = .ok .time32s)
    ∧ (toLowerStr s = "timestamp" → getArrowTypeFromString s = .ok .timestampUs)
    ∧ (toLowerStr s = "boolean" → getArrowTypeFromString s = .ok .boolean)
    ∧ (hasPrefixStr (toLowerStr s) "varchar" = true →
        getArrowTypeFromString s = .ok .string) :=
  ⟨arrowTypeFromString_of_lower s "tinyint" .int8 rfl,
   arrowTypeFromString_of_lower s "smallint" .int16 rfl,
   arrowTypeFromString_of_lower s "integer" .int32 rfl,
   arrowTypeFromString_of_lower s "int" .int32 rfl,
   arrowTypeFromString_of_lower s "int32" .int32 rfl,
   arrowTypeFromString_of_lower s "bigint" .int64 rfl,
   arrowTypeFromString_of_lower s "int64" .int64 rfl,
   arrowTypeFromString_of_lower s "float" .float32 rfl,
   arrowTypeFromString_of_lower s "double" .float64 rfl,
   arrowTypeFromString_of_lower s "blob" .binary rfl,
   arrowTypeFromString_of_lower s "text" .string rfl,
   arrowTypeFromString_of_lower s "string" .string rfl,
   arrowTypeFromString_of_lower s "date" .date32 rfl,
   arrowTypeFromString_of_lower s "time" .time32s rfl,
   arrowTypeFromString_of_lower s "timestamp" .timestampUs rfl,
   arrowTypeFromString_of_lower s "boolean" .boolean rfl,
   arrowTypeFromString_of_varchar s⟩

/-- Witness for C4 at mixed-case and length-qualified names. -/
theorem spec_c4_witness :
    getArrowTypeFromString "TinyInt" = .ok .int8
    ∧ getArrowTypeFromString "VARCHAR(255)" = .ok .string
    ∧ getArrowTypeFromString "Timestamp" = .ok .timestampUs :=
  ⟨(spec_c4 "TinyInt").1 rfl,
   (spec_c4 "VARCHAR(255)").2.2.2.2.2.2.2.2.2.2.2.2.2.2.2.2 rfl,
   (spec_c4 "Timestamp").2.2.2.2.2.2.2.2.2.2.2.2.2.2.1 rfl⟩

/-- C8: a non-empty declared type name outside the mapping table, not
beginning with varchar, makes the type mapping fail fatally (panic with an
invalid-type message) instead of defaulting to some canonical type. -/
theorem spec_c8 (s : String)
    (h1 : toLowerStr s ≠ "")
    (h2 : hasPrefixStr (toLowerStr s) "varchar" = false)
    (h3 : toLowerStr s ∉ tableNames) :
    getArrowTypeFromString s
      = .error ("invalid DuckDB type: " ++ toLowerStr s) := by
  simp only [getArrowTypeFromString, arrowTypeOfLower]
  rw [if_neg h1, if_neg (by simp [h2])]
  simp only [tableNames, List.mem_cons, List.not_mem_nil, or_false, not_or] at h3
  split <;> simp_all

/-- Witness for C8 at the unsupported declared name uuid. -/
theorem spec_c8_witness :
    getArrowTypeFromString "uuid"
      = .error ("invalid DuckDB type: " ++ toLowerStr "uuid") :=
  spec_c8 "uuid" (by decide) (by decide) (by decide)

/-- A cursor column with empty declared type name and the given native
scan-type hint, used to state the empty-name mapping claims. -/
def c9Col (k : Option ReflectKind) : ColumnType :=
  { name := "c", databaseTypeName := "", nullable := true, scanType := k }

/-- C9 counterexample: with an empty declared name and a native scan-type
hint of a kind outside the enumerated cases, the mapping does not raise any
unsupported-native-kind error; it silently returns the null type. -/
theorem spec_c9_counterexample :
    getArrowType (c9Col (some ReflectKind.other)) = .ok ArrowDataType.null :=
  rfl

/-- C9 amended: empty declared name with no hint gives the dense union;
with a hint the enumerated kinds map by width and category (uint8 with
int8, and so on, with int and uint64 mapping to int64); any other kind,
including uint, silently falls through to the empty-name lookup and yields
the null type. -/
theorem spec_c9_amended :
    getArrowType (c9Col none) = .ok duckDBDenseUnion
    ∧ getArrowType (c9Col (some .int8)) = .ok .int8
    ∧ getArrowType (c9Col (some .uint8)) = .ok .int8
    ∧ getArrowType (c9Col (some .int16)) = .ok .int16
    ∧ getArrowType (c9Col (some .uint16)) = .ok .int16
    ∧ getArrowType (c9Col (some .int32)) = .ok .int32
    ∧ getArrowType (c9Col (some .uint32)) = .ok .int32
    ∧ getArrowType (c9Col (some .int)) = .ok .int64
    ∧ getArrowType (c9Col (some .int64)) = .ok .int64
    ∧ getArrowType (c9Col (some .uint64)) = .ok .int64
    ∧ getArrowType (c9Col (some .float32)) = .ok .float32
    ∧ getArrowType (c9Col (some .float64)) = .ok .float64
    ∧ getArrowType (c9Col (some .string)) = .ok .string
    ∧ getArrowType (c9Col (some .bool)) = .ok .boolean
    ∧ getArrowType (c9Col (some .uint)) = .ok .null :=
  ⟨rfl, rfl, rfl, rfl, rfl, rfl, rfl, rfl, rfl, rfl, rfl, rfl, rfl, rfl,
   rfl⟩

/-- C5 counterexample: an int16 (smallint) field of the resolved schema gets
no row destination at all: the allocator switch has no INT16 case, so the
slot stays a nil interface. -/
theorem spec_c5_counterexample :
    mkRowDest ArrowDataType.int16 false = none
    ∧ (NewDuckDBBatchReaderWithSchema
        [{ name := "s", type := ArrowDataType.int16, nullable := false }]
        []).rowdest = some [none] := by decide

/-- C5 amended: the allocator produces exactly one destination slot per
field, of the documented shape, for union, int8/uint8, int32, int64,
float32/float64, binary and string fields (float32 fields share the 64-bit
float slot); fields of type int16, boolean, date32, time32, timestamp or
null get no destination (nil slot); the destinations are fixed at
construction and are never changed by `Next()`. -/
theorem spec_c5_amended (b : Bool) :
    mkRowDest ArrowDataType.denseUnion b = some RowDest.generic
    ∧ mkRowDest ArrowDataType.uint8 b
        = some (if b then RowDest.nullByte else RowDest.rawUint8)
    ∧ mkRowDest ArrowDataType.int8 b
        = some (if b then RowDest.nullByte else RowDest.rawUint8)
    ∧ mkRowDest ArrowDataType.int32 b
        = some (if b then RowDest.nullInt32 else RowDest.rawInt32)
    ∧ mkRowDest ArrowDataType.int64 b
        = some (if b then RowDest.nullInt64 else RowDest.rawInt64)
    ∧ mkRowDest ArrowDataType.float32 b
        = some (if b then RowDest.nullFloat64 else RowDest.rawFloat64)
    ∧ mkRowDest ArrowDataType.float64 b
        = some (if b then RowDest.nullFloat64 else RowDest.rawFloat64)
    ∧ mkRowDest ArrowDataType.binary b = some RowDest.byteSeq
    ∧ mkRowDest ArrowDataType.string b
        = some (if b then RowDest.nullString else RowDest.rawString)
    ∧ mkRowDest ArrowDataType.int16 b = none
    ∧ mkRowDest ArrowDataType.boolean b = none
    ∧ mkRowDest ArrowDataType.date32 b = none
    ∧ mkRowDest ArrowDataType.time32s b = none
    ∧ mkRowDest ArrowDataType.timestampUs b = none
    ∧ mkRowDest ArrowDataType.null b = none
    ∧ (∀ (sch : List FieldSpec) (script : List RowOutcome),
        (NewDuckDBBatchReaderWithSchema sch script).rowdest
          = some (sch.map fun f => mkRowDest f.type f.nullable))
    ∧ (∀ r : SqlBatchReader,
        (r.Next).map (fun p => p.2.rowdest)
          = (r.Next).map (fun _ => r.rowdest)) := by
  refine ⟨rfl, rfl, rfl, rfl, rfl, rfl, rfl, rfl, rfl, rfl, rfl, rfl, rfl,
    rfl, rfl, fun sch script => rfl, fun r => ?_⟩
  simp only [SqlBatchReader.Next]
  rcases hrow : r.rows with _ | pend
  · simp [Except.map]
  rcases hsch : r.schema with _ | sch
  · simp [Except.map]
  rcases hbld : r.bldr with _ | cols
  · simp [Except.map]
  rcases hnl : nextLoop (sch.map FieldSpec.type) (schemaString sch) 0 pend cols
    with p | lr
  · simp [hnl, Except.map]
  · rcases lr with ⟨rest, kept, e⟩ | ⟨n, rest, outCols⟩ <;>
      simp [hnl, Except.map]

/-- C6 evaluation at the failing input: a nullable tinyint (int8) column is
allocated the NullByte wrapper, and a scan reporting valid with value 7
makes `Next()` panic on the `*array.Uint8Builder` type assertion (the
builder of an int8 column is an `*array.Int8Builder`), so the value is
never appended; the invalid path, which uses the assertion-free
`AppendNull`, does append a null. -/
theorem spec_c6_code_bug :
    (NewDuckDBBatchReaderWithSchema
        [{ name := "v", type := ArrowDataType.int8, nullable := true }]
        [.scanOk [.sNullByte true 7]]).rowdest = some [some RowDest.nullByte]
    ∧ (NewDuckDBBatchReaderWithSchema
        [{ name := "v", type := ArrowDataType.int8, nullable := true }]
        [.scanOk [.sNullByte true 7]]).Next
      = .error "interface conversion: builder is not *array.Uint8Builder"
    ∧ appendVal ArrowDataType.int8 (.sNullByte false 0) [] = .ok [Cell.null] :=
  ⟨by decide, rfl, rfl⟩

/-- C7 evaluation at the failing input: the nil check in the byte-slice
append branch tests the destination pointer, which the allocator makes
non-nil, so a nil byte slice is never appended as null: it is stored as a
valid zero-length value, indistinguishable from an empty slice. -/
theorem spec_c7_code_bug :
    appendVal ArrowDataType.binary (ScanVal.sBytes none) []
      = .ok [Cell.binaryCell []]
    ∧ appendVal ArrowDataType.binary (ScanVal.sBytes (some [])) []
      = .ok [Cell.binaryCell []]
    ∧ ((NewDuckDBBatchReaderWithSchema
        [{ name := "b", type := ArrowDataType.binary, nullable := false }]
        [.scanOk [.sBytes none]]).Next).map (fun p => (p.1, p.2.record))
      = .ok (true, some [[Cell.binaryCell []]]) :=
  ⟨rfl, rfl, rfl⟩
